import Mathlib

/-!
Shallow embedding of the `shy` interactive SSH host picker (src/main.rs).

The program loads an ordered host list, runs a blocking key-event loop over
two input modes (Navigate, Search), and on Enter returns the selected host
name, which `main` then hands to `ssh` via `exec`.

Modelling conventions:
  * `HostMap` (an ordered name → config map, iterated in order; only the
    names matter to the controller) is modelled as `List String`.
  * The search buffer (a Rust `String`) is modelled as `List Char`; the
    byte-oriented operations of `String` (`len`, `truncate`) are modelled
    via the UTF-8 byte width of each character.
  * A Rust panic (explicit `panic!`, or an overflow-checked `usize`
    underflow such as `hosts.len() - 1` at length 0, or `String::truncate`
    called off a char boundary) is modelled as the `panicked` outcome.
  * Terminal writes are modelled structurally: `draw` produces a `Frame`
    recording the rows and texts it writes, instead of escape sequences.
-/

/-- Input mode of the session controller (`enum InputMode` in main.rs). -/
inductive InputMode where
  | search
  | navigate
deriving DecidableEq, Repr

/-- Key events delivered by the terminal (the subset of `termion::event::Key`
matched in `run`; all unmatched keys collapse to `other`). -/
inductive Key where
  | char (c : Char)
  | ctrl (c : Char)
  | up
  | down
  | esc
  | backspace
  | other
deriving DecidableEq, Repr

/-- Mutable state of the event loop in `run`: selection index, mode, search
buffer (`selected`, `mode`, `input` in main.rs). -/
structure AppState where
  selected : Nat
  mode : InputMode
  input : List Char
deriving DecidableEq, Repr

/-- Initial state of `run`: `selected = 0`, `mode = Navigate`, empty buffer. -/
def initState : AppState := ⟨0, InputMode.navigate, []⟩

/-- Outcome of handling one key event. -/
inductive StepResult where
  | cont (s : AppState)
  | chosen (host : String)
  | quit
  | panicked
deriving DecidableEq, Repr

/-- UTF-8 byte width of a character (what `String::push` appends and
`String::len` counts in Rust). -/
def charBytes (c : Char) : Nat :=
  if c.toNat < 128 then 1
  else if c.toNat < 2048 then 2
  else if c.toNat < 65536 then 3
  else 4

/-- Up / Ctrl-P in Navigate mode:
`if selected == 0 { selected = hosts.len() - 1 } else { selected -= 1 }`.
The `usize` subtraction `hosts.len() - 1` underflows when the host list is
empty, which is a panic under overflow checking. -/
def moveUp (hosts : List String) (s : AppState) : StepResult :=
  if s.selected = 0 then
    if hosts.length = 0 then StepResult.panicked
    else StepResult.cont { s with selected := hosts.length - 1 }
  else StepResult.cont { s with selected := s.selected - 1 }

/-- Down / Ctrl-N in Navigate mode:
`if selected >= hosts.len() - 1 { selected = 0 } else { selected += 1 }`.
`hosts.len() - 1` is evaluated unconditionally and underflows at length 0. -/
def moveDown (hosts : List String) (s : AppState) : StepResult :=
  if hosts.length = 0 then StepResult.panicked
  else if hosts.length - 1 ≤ s.selected then StepResult.cont { s with selected := 0 }
  else StepResult.cont { s with selected := s.selected + 1 }

/-- Enter in either mode:
`if let Some(host) = hosts.iter().nth(selected) { return Ok(Some(host.0.clone())) }
else { panic!("can't find host") }`. -/
def confirmSel (hosts : List String) (s : AppState) : StepResult :=
  match hosts.get? s.selected with
  | some h => StepResult.chosen h
  | none => StepResult.panicked

/-- Backspace in Search mode:
`if !input.is_empty() { input.truncate(input.len() - 1) }`.
`len` is the byte length; `truncate` removes the final byte and panics when
the resulting length is not a char boundary, i.e. whenever the last
character is wider than one byte. -/
def backspaceOp (s : AppState) : StepResult :=
  match s.input.getLast? with
  | none => StepResult.cont s
  | some c =>
      if charBytes c = 1 then StepResult.cont { s with input := s.input.dropLast }
      else StepResult.panicked

/-- Navigate-mode arm of the `match event` in `run`. -/
def stepNavigate (hosts : List String) (s : AppState) : Key → StepResult
  | Key.char c =>
      if c = 'q' then StepResult.quit
      else if c = 'i' ∨ c = 's' then StepResult.cont { s with mode := InputMode.search }
      else if c = '\n' then confirmSel hosts s
      else StepResult.cont s
  | Key.ctrl c =>
      if c = 'c' then StepResult.quit
      else if c = 'p' then moveUp hosts s
      else if c = 'n' then moveDown hosts s
      else StepResult.cont s
  | Key.up => moveUp hosts s
  | Key.down => moveDown hosts s
  | _ => StepResult.cont s

/-- Search-mode arm of the `match event` in `run`. -/
def stepSearch (hosts : List String) (s : AppState) : Key → StepResult
  | Key.ctrl c =>
      if c = 'c' then StepResult.cont { s with input := [], mode := InputMode.navigate }
      else StepResult.cont s
  | Key.esc => StepResult.cont { s with input := [], mode := InputMode.navigate }
  | Key.backspace => backspaceOp s
  | Key.char c =>
      if c = '\n' then confirmSel hosts s
      else StepResult.cont { s with input := s.input ++ [c] }
  | _ => StepResult.cont s

/-- One iteration of the event loop body of `run`. -/
def step (hosts : List String) (s : AppState) (k : Key) : StepResult :=
  match s.mode with
  | InputMode.navigate => stepNavigate hosts s k
  | InputMode.search => stepSearch hosts s k

/-- Run the loop body over a list of keys, stopping at the first
non-continuing outcome; returns the final step outcome (`cont` with the
final state if every key continued). -/
def stepsFrom (hosts : List String) : AppState → List Key → StepResult
  | s, [] => StepResult.cont s
  | s, k :: ks =>
      match step hosts s k with
      | StepResult.cont s' => stepsFrom hosts s' ks
      | r => r

/-- Result of the whole `run` loop. -/
inductive RunResult where
  | chosen (host : String)
  | cancelled
  | panicked
deriving DecidableEq, Repr

/-- `run`'s loop over a finite key stream: quitting or exhausting the stream
returns `Ok(None)` (cancelled); Enter with a resolvable selection returns
`Ok(Some(host))`. -/
def runKeys (hosts : List String) (s : AppState) (ks : List Key) : RunResult :=
  match stepsFrom hosts s ks with
  | StepResult.cont _ => RunResult.cancelled
  | StepResult.chosen h => RunResult.chosen h
  | StepResult.quit => RunResult.cancelled
  | StepResult.panicked => RunResult.panicked

/-- One host row emitted by `draw`: terminal row, whether this row carries
the selection marker `"> "`, and the host name written. -/
structure EntryWrite where
  row : Nat
  marked : Bool
  name : String
deriving DecidableEq, Repr

/-- Host rows written by the `for (i, (host, _config)) in hosts.iter().enumerate()`
loop in `draw`: `row` starts at 3 and increments once per entry; the entry
whose index equals `selected` gets the marker. Every host is written; the
search input plays no part. -/
def drawEntriesGo (selected : Nat) : Nat → Nat → List String → List EntryWrite
  | _, _, [] => []
  | row, i, h :: hs =>
      ⟨row, decide (i = selected), h⟩ :: drawEntriesGo selected (row + 1) (i + 1) hs

/-- Full frame written by `draw(hosts, selected, input)` for a terminal with
`rows` rows: the prompt line at `rows - 2` echoing the search input, the
status line at `rows - 1`, and one row per host entry starting at row 3. -/
structure Frame where
  promptRow : Nat
  promptInput : List Char
  statusRow : Nat
  entries : List EntryWrite
deriving DecidableEq, Repr

/-- The `draw` function of main.rs, modelled structurally. -/
def draw (rows : Nat) (hosts : List String) (selected : Nat) (input : List Char) : Frame :=
  { promptRow := rows - 2
    promptInput := input
    statusRow := rows - 1
    entries := drawEntriesGo selected 3 0 hosts }

/-- Names shown by a frame, in order: the visible list of the renderer. -/
def visibleNames (f : Frame) : List String := f.entries.map EntryWrite.name

/-- Check that `pat` occurs at the very start of `s`. -/
def startsWith : List Char → List Char → Bool
  | [], _ => true
  | _ :: _, [] => false
  | p :: ps, c :: cs => p = c && startsWith ps cs

/-- Check case-sensitive contiguous substring containment of `pat` in `s`. -/
def containsSub (pat : List Char) : List Char → Bool
  | [] => pat.isEmpty
  | c :: cs => startsWith pat (c :: cs) || containsSub pat cs

/-- Modelled from the spec: the visible list the specification mandates —
the subsequence of the host list whose display names contain the buffer as
a case-sensitive substring, the full list when the buffer is empty. The
source has no filtering code; this definition exists only to be compared
against the renderer's actual visible list. -/
def specVisible (hosts : List String) (buffer : List Char) : List String :=
  if buffer.isEmpty then hosts
  else hosts.filter (fun h => containsSub buffer h.toList)

/-- Outcome of `main`: a plain process exit with a code, a successful
process-image replacement by `exec ssh <host>` (the exit code is then the
external program's, out of scope), or a panic. -/
inductive MainOutcome where
  | exited (code : Nat)
  | handedOff (host : String)
  | panicked
deriving DecidableEq, Repr

/-- The `main` function: `load_ssh_config()?` failing makes `run()?`
propagate an `Err`, which a Rust `main` turns into exit code 1. Otherwise
the loop runs; on `Ok(Some(host))` main calls `cmd.exec()`. On exec success
the process is replaced; on exec failure main prints the error with
`eprintln!` and falls through to `Ok(())`, exiting 0. `Ok(None)` exits 0. -/
def mainOutcome (loadOk : Bool) (hosts : List String) (ks : List Key)
    (execFails : Bool) : MainOutcome :=
  if loadOk then
    match runKeys hosts initState ks with
    | RunResult.chosen h =>
        if execFails then MainOutcome.exited 0 else MainOutcome.handedOff h
    | RunResult.cancelled => MainOutcome.exited 0
    | RunResult.panicked => MainOutcome.panicked
  else MainOutcome.exited 1

/-- Keys the cursor-wrapping claim quantifies over. -/
def upDownKey (k : Key) : Prop :=
  k = Key.up ∨ k = Key.down ∨ k = Key.ctrl 'p' ∨ k = Key.ctrl 'n'

instance : DecidablePred upDownKey := fun k => by
  unfold upDownKey
  infer_instance

lemma drawEntriesGo_names (sel : Nat) :
    ∀ (hs : List String) (row i : Nat),
      (drawEntriesGo sel row i hs).map EntryWrite.name = hs
  | [], _, _ => rfl
  | h :: hs, row, i => by
      simp [drawEntriesGo, drawEntriesGo_names sel hs (row + 1) (i + 1)]

lemma drawEntriesGo_rows (sel : Nat) :
    ∀ (hs : List String) (row i : Nat),
      (drawEntriesGo sel row i hs).map EntryWrite.row = List.range' row hs.length
  | [], _, _ => rfl
  | h :: hs, row, i => by
      simp [drawEntriesGo, drawEntriesGo_rows sel hs (row + 1) (i + 1), List.range']

lemma visibleNames_draw (rows : Nat) (hosts : List String) (selected : Nat)
    (input : List Char) : visibleNames (draw rows hosts selected input) = hosts :=
  drawEntriesGo_names selected hosts 3 0

/-- C1 counterexample: with the single host "alpha" and the non-matching
buffer "z", the renderer still shows ["alpha"], while the claimed filtered
subsequence is empty — so the claim's equality fails at this input. -/
theorem C1_counterexample :
    visibleNames (draw 24 ["alpha"] 0 ['z']) ≠ specVisible ["alpha"] ['z'] := by
  decide

/-- C1 (amended): the visible list is always the full Host List unchanged —
`draw` iterates every host and ignores the search buffer entirely, so no
filtering ever happens, for empty and non-empty buffers alike. -/
theorem C1_visible_is_full_list (rows : Nat) (hosts : List String)
    (selected : Nat) (input : List Char) :
    visibleNames (draw rows hosts selected input) = hosts :=
  visibleNames_draw rows hosts selected input

/-- C2: with an empty host list the visible list is empty, yet pressing
Enter is not a no-op: `hosts.iter().nth(selected)` yields `None` and the
code hits `panic!("can't find host")`, crashing the loop. -/
theorem C2_confirm_on_empty_panics :
    visibleNames (draw 24 ([] : List String) 0 []) = [] ∧
    step ([] : List String) initState (Key.char '\n') = StepResult.panicked ∧
    runKeys ([] : List String) initState [Key.char '\n'] = RunResult.panicked := by
  decide

/-- C3 counterexample: hosts ["alpha","beta","gamma"], keys 'i' 'b' Enter.
The claim says the result is Chosen("beta"); the code never filters, the
cursor stays at 0, and Enter resolves index 0 of the full list. -/
theorem C3_counterexample :
    runKeys ["alpha", "beta", "gamma"] initState
        [Key.char 'i', Key.char 'b', Key.char '\n']
      ≠ RunResult.chosen "beta" := by
  decide

/-- C3 (amended): Enter in Search mode resolves against the full,
unfiltered host list at the current cursor, so 'i' 'b' Enter from the
initial state yields Chosen("alpha"). -/
theorem C3_enter_resolves_unfiltered :
    runKeys ["alpha", "beta", "gamma"] initState
        [Key.char 'i', Key.char 'b', Key.char '\n']
      = RunResult.chosen "alpha" := by
  decide

lemma step_upDown_cont (hosts : List String) (hne : hosts ≠ []) (s : AppState)
    (hm : s.mode = InputMode.navigate) (hs : s.selected < hosts.length)
    (k : Key) (hk : upDownKey k) :
    ∃ s', step hosts s k = StepResult.cont s' ∧ s'.selected < hosts.length ∧
      s'.mode = InputMode.navigate ∧ s'.input = s.input := by
  have hlen : hosts.length ≠ 0 := by
    simpa [List.length_eq_zero] using hne
  have hpos : 0 < hosts.length := Nat.pos_of_ne_zero hlen
  obtain ⟨sel, m, inp⟩ := s
  simp only at hm hs
  subst hm
  have hup : ∃ s', moveUp hosts ⟨sel, InputMode.navigate, inp⟩ = StepResult.cont s' ∧
      s'.selected < hosts.length ∧ s'.mode = InputMode.navigate ∧ s'.input = inp := by
    by_cases h0 : sel = 0
    · exact ⟨⟨hosts.length - 1, InputMode.navigate, inp⟩,
        by simp [moveUp, h0, hlen], Nat.sub_lt hpos Nat.one_pos, rfl, rfl⟩
    · exact ⟨⟨sel - 1, InputMode.navigate, inp⟩, by simp [moveUp, h0],
        lt_of_le_of_lt (Nat.sub_le sel 1) hs, rfl, rfl⟩
  have hdown : ∃ s', moveDown hosts ⟨sel, InputMode.navigate, inp⟩ = StepResult.cont s' ∧
      s'.selected < hosts.length ∧ s'.mode = InputMode.navigate ∧ s'.input = inp := by
    by_cases htop : hosts.length - 1 ≤ sel
    · exact ⟨⟨0, InputMode.navigate, inp⟩, by simp [moveDown, hlen, htop], hpos, rfl, rfl⟩
    · exact ⟨⟨sel + 1, InputMode.navigate, inp⟩, by simp [moveDown, hlen, htop],
        by show sel + 1 < hosts.length; omega, rfl, rfl⟩
  rcases hk with h | h | h | h <;> subst h
  · simpa [step, stepNavigate] using hup
  · simpa [step, stepNavigate] using hdown
  · simpa [step, stepNavigate] using hup
  · simpa [step, stepNavigate] using hdown

lemma stepsFrom_upDown_inv (hosts : List String) (hne : hosts ≠ []) :
    ∀ (ks : List Key) (s : AppState), s.mode = InputMode.navigate →
      s.selected < hosts.length → (∀ k ∈ ks, upDownKey k) →
      ∃ s', stepsFrom hosts s ks = StepResult.cont s' ∧
        s'.selected < hosts.length ∧ s'.mode = InputMode.navigate
  | [], s, hm, hs, _ => ⟨s, rfl, hs, hm⟩
  | k :: ks, s, hm, hs, hks => by
      obtain ⟨s', hstep, hs', hm', _⟩ :=
        step_upDown_cont hosts hne s hm hs k (hks k (List.mem_cons_self k ks))
      obtain ⟨s'', hrest, hs'', hm''⟩ :=
        stepsFrom_upDown_inv hosts hne ks s' hm' hs'
          (fun k' hk' => hks k' (List.mem_cons_of_mem k hk'))
      exact ⟨s'', by simp [stepsFrom, hstep, hrest], hs'', hm''⟩

/-- C4: with a non-empty host list (the visible list is always the full
host list), any sequence of Up/Down (or Ctrl-P/Ctrl-N) presses from a
Navigate-mode state with cursor in [0, N-1] keeps the loop running with the
cursor in [0, N-1]; and wrapping is circular: Up at index 0 lands on N-1,
Down at index N-1 lands on 0. -/
theorem C4_cursor_in_range_and_wraps (hosts : List String) (hne : hosts ≠ [])
    (sel : Nat) (hsel : sel < hosts.length) (inp : List Char)
    (ks : List Key) (hks : ∀ k ∈ ks, upDownKey k) :
    (∃ s', stepsFrom hosts ⟨sel, InputMode.navigate, inp⟩ ks = StepResult.cont s' ∧
        s'.selected < hosts.length ∧ s'.mode = InputMode.navigate) ∧
    step hosts ⟨0, InputMode.navigate, inp⟩ Key.up
      = StepResult.cont ⟨hosts.length - 1, InputMode.navigate, inp⟩ ∧
    step hosts ⟨hosts.length - 1, InputMode.navigate, inp⟩ Key.down
      = StepResult.cont ⟨0, InputMode.navigate, inp⟩ := by
  have hlen : hosts.length ≠ 0 := by
    simpa [List.length_eq_zero] using hne
  refine ⟨stepsFrom_upDown_inv hosts hne ks ⟨sel, InputMode.navigate, inp⟩ rfl hsel hks,
    ?_, ?_⟩
  · simp [step, stepNavigate, moveUp, hlen]
  · simp [step, stepNavigate, moveDown, hlen]

/-- C4 witness: two hosts, cursor 1, keys Up then Down. -/
theorem C4_witness :
    (∃ s', stepsFrom ["a", "b"] ⟨1, InputMode.navigate, []⟩ [Key.up, Key.down]
        = StepResult.cont s' ∧
        s'.selected < (["a", "b"] : List String).length ∧
        s'.mode = InputMode.navigate) ∧
    step ["a", "b"] ⟨0, InputMode.navigate, []⟩ Key.up
      = StepResult.cont ⟨(["a", "b"] : List String).length - 1, InputMode.navigate, []⟩ ∧
    step ["a", "b"] ⟨(["a", "b"] : List String).length - 1, InputMode.navigate, []⟩ Key.down
      = StepResult.cont ⟨0, InputMode.navigate, []⟩ :=
  C4_cursor_in_range_and_wraps ["a", "b"] (by decide) 1 (by decide) []
    [Key.up, Key.down] (by decide)

/-- C5: from any Search-mode state, Escape and Ctrl-C each clear the search
buffer and switch the mode to Navigate, leaving the cursor untouched; the
outcome is `cont`, so the event loop keeps running. -/
theorem C5_cancel_search (hosts : List String) (s : AppState)
    (hm : s.mode = InputMode.search) :
    step hosts s Key.esc
      = StepResult.cont ⟨s.selected, InputMode.navigate, []⟩ ∧
    step hosts s (Key.ctrl 'c')
      = StepResult.cont ⟨s.selected, InputMode.navigate, []⟩ := by
  obtain ⟨sel, m, inp⟩ := s
  simp only at hm
  subst hm
  exact ⟨rfl, rfl⟩

/-- C5 witness: Search mode with buffer "ab" and cursor 2. -/
theorem C5_witness :
    step ["x"] ⟨2, InputMode.search, ['a', 'b']⟩ Key.esc
      = StepResult.cont ⟨2, InputMode.navigate, []⟩ ∧
    step ["x"] ⟨2, InputMode.search, ['a', 'b']⟩ (Key.ctrl 'c')
      = StepResult.cont ⟨2, InputMode.navigate, []⟩ :=
  C5_cancel_search ["x"] ⟨2, InputMode.search, ['a', 'b']⟩ rfl

/-- C6: Backspace on a non-empty buffer whose last character is one byte
wide removes that character, and Backspace on an empty buffer is a no-op;
but on a buffer ending in a multi-byte character (here 'é', two UTF-8
bytes) the code's `input.truncate(input.len() - 1)` cuts one byte off
mid-character and panics, instead of removing the last character. -/
theorem C6_backspace_behavior :
    step ([] : List String) ⟨0, InputMode.search, ['a', 'b']⟩ Key.backspace
      = StepResult.cont ⟨0, InputMode.search, ['a']⟩ ∧
    step ([] : List String) ⟨0, InputMode.search, []⟩ Key.backspace
      = StepResult.cont ⟨0, InputMode.search, []⟩ ∧
    step ([] : List String) ⟨0, InputMode.search, ['é']⟩ Key.backspace
      = StepResult.panicked := by
  decide

/-- C10: with an empty host list, Up and Down in Navigate mode are not
total: the code evaluates `hosts.len() - 1` with `hosts.len() == 0`, a
`usize` underflow (panic in overflow-checked builds, wrap to `usize::MAX`
otherwise), modelled as `panicked`. -/
theorem C10_updown_on_empty_panics :
    step ([] : List String) initState Key.up = StepResult.panicked ∧
    step ([] : List String) initState Key.down = StepResult.panicked ∧
    step ([] : List String) initState (Key.ctrl 'p') = StepResult.panicked ∧
    step ([] : List String) initState (Key.ctrl 'n') = StepResult.panicked := by
  decide

/-- C7 counterexample: a successful load, the single host "alpha", Enter,
and a failing `exec`: `main` prints the exec error with `eprintln!` and
falls through to `Ok(())`, so the process exits 0 — not non-zero as the
claim requires for a handoff failure. -/
theorem C7_counterexample :
    mainOutcome true ["alpha"] [Key.char '\n'] true = MainOutcome.exited 0 := by
  decide

/-- C7 (amended): a Host Directory load failure exits 1 (non-zero); once the
load succeeds, every plain process exit — user cancel, but also a failed
handoff exec — carries exit code 0. -/
theorem C7_exit_codes (hosts : List String) (ks : List Key) (e : Bool) (c : Nat)
    (hc : mainOutcome true hosts ks e = MainOutcome.exited c) :
    c = 0 ∧ mainOutcome false hosts ks e = MainOutcome.exited 1 := by
  refine ⟨?_, rfl⟩
  unfold mainOutcome at hc
  cases hrk : runKeys hosts initState ks <;> rw [hrk] at hc
  · cases e <;> simp_all
  · simp_all
  · simp_all

/-- C7 witness: cancel by 'q' with a successful load exits 0. -/
theorem C7_witness :
    mainOutcome true ["alpha"] [Key.char 'q'] false = MainOutcome.exited 0 ∧
    ((0 : Nat) = 0 ∧ mainOutcome false ["alpha"] [Key.char 'q'] false
      = MainOutcome.exited 1) :=
  ⟨by decide, C7_exit_codes ["alpha"] [Key.char 'q'] false 0 (by decide)⟩

/-- C8 counterexample: hosts ["alpha","beta","gamma"], keys Down Down 'i'
'b'. The buffer becomes "b", whose spec-filtered visible list is ["beta"]
(one entry, last valid index 0), yet the cursor stays at 2 — it is not
clamped into [0, max(0, visible_count - 1)]. -/
theorem C8_counterexample :
    stepsFrom ["alpha", "beta", "gamma"] initState
        [Key.down, Key.down, Key.char 'i', Key.char 'b']
      = StepResult.cont ⟨2, InputMode.search, ['b']⟩ ∧
    (specVisible ["alpha", "beta", "gamma"] ['b']).length = 1 ∧
    ¬ (2 ≤ (specVisible ["alpha", "beta", "gamma"] ['b']).length - 1) := by
  decide

/-- C8 (amended): the code never clamps the cursor, because filtering never
changes the visible list: typing a printable character in Search mode only
appends to the buffer and leaves the cursor untouched, and the renderer
still draws the full host list, so the visible count is unchanged. -/
theorem C8_no_clamping (hosts : List String) (rows : Nat) (s : AppState)
    (hm : s.mode = InputMode.search) (c : Char) (hc : c ≠ '\n') :
    step hosts s (Key.char c)
      = StepResult.cont ⟨s.selected, InputMode.search, s.input ++ [c]⟩ ∧
    (visibleNames (draw rows hosts s.selected (s.input ++ [c]))).length
      = hosts.length := by
  obtain ⟨sel, m, inp⟩ := s
  simp only at hm
  subst hm
  exact ⟨by simp [step, stepSearch, hc], by rw [visibleNames_draw]⟩

/-- C8 witness: one host, Search mode, cursor 5, typing 'z'. -/
theorem C8_witness :
    step ["a"] ⟨5, InputMode.search, []⟩ (Key.char 'z')
      = StepResult.cont ⟨5, InputMode.search, [] ++ ['z']⟩ ∧
    (visibleNames (draw 24 ["a"] 5 ([] ++ ['z']))).length
      = (["a"] : List String).length :=
  C8_no_clamping ["a"] 24 ⟨5, InputMode.search, []⟩ rfl 'z' (by decide)

/-- C9 counterexample: four hosts on a 4-row terminal. The renderer writes
host rows 3, 4, 5 and 6; rows 5 and 6 exceed the terminal's row bound, so
entries beyond the available rows are not truncated. -/
theorem C9_counterexample :
    (draw 4 ["a", "b", "c", "d"] 0 []).entries.map EntryWrite.row
      = [3, 4, 5, 6] ∧
    ∃ e ∈ (draw 4 ["a", "b", "c", "d"] 0 []).entries, 4 < e.row := by
  decide

/-- C9 (amended): the renderer writes one row per host at rows 3, 4, ...,
3 + N - 1, regardless of the terminal size: nothing is truncated, and
writes beyond the last terminal row are left to the terminal device (the
program itself does not crash on them). -/
theorem C9_rows_written (rows : Nat) (hosts : List String) (selected : Nat)
    (input : List Char) :
    (draw rows hosts selected input).entries.map EntryWrite.row
      = List.range' 3 hosts.length :=
  drawEntriesGo_rows selected hosts 3 0
